import Mathlib

/-!
Verification of the idemix anonymous-credential identity subsystem of
fabric-smart-client: the `identity` / `signingIdentity` values, the
`support` canonical parse path (`Deserialize`), and the `provider`
orchestrator (`NewProvider`, `Identity`, `DeserializeSigner`,
`DeserializeSigningIdentity`), as implemented in
`platform/fabric/core/generic/msp/idemix`.

Modelling conventions:
* Go byte slices and Go strings are both `List Nat` (a Go string is an
  immutable byte sequence; string/byte conversions are the identity).
* The external credential-cryptography engine (`bccsp.BCCSP`) is an
  abstract record of pure operations over an opaque key type `κ`,
  matching the spec's view of the engine as an external collaborator
  whose sign/verify operations are pure functions of their inputs.
* The external protobuf codec (`proto.Marshal` / `proto.Unmarshal`) is
  modelled, per message shape, as a deterministic tag/length encoding
  whose decoder is the exact inverse of the encoder (it accepts exactly
  the canonical encodings).  An absent/empty bytes field decodes to `[]`,
  which plays the role of Go's `nil` slice in the source's checks.
* Go `panic` is a distinguished outcome (`Outcome.panicked`), separate
  from a returned error.
* Fallible Go calls returning `(T, error)` become `Except`/`Outcome`
  values; each distinct error-construction site in the source gets its
  own constructor of the `Err` type.
-/

/-- Outcome of a Go computation that may return a value, return an error,
or panic. -/
inductive Outcome (ε α : Type) where
  | ok (a : α)
  | err (e : ε)
  | panicked
deriving DecidableEq

/-- Sequencing of Go computations: an error or a panic aborts the rest. -/
def Outcome.bind {ε α β : Type} : Outcome ε α → (α → Outcome ε β) → Outcome ε β
  | .ok a, f => f a
  | .err e, _ => .err e
  | .panicked, _ => .panicked

/-- Opaque error values produced by the external crypto engine. -/
abbrev EngErr := String

/-- Bytes of an ASCII string literal, used for the fixed probe message and
attribute names appearing in the source. -/
def strBytes (s : String) : List Nat :=
  s.data.map Char.toNat

/-!
Wire codec.  The external protobuf codec is modelled as a deterministic
tag/length encoding: every field is emitted as its tag byte, a
self-delimiting length code, and the payload.  The decoder accepts exactly
the encoder's outputs, so `unmarshal (marshal m) = some m` and every
accepted byte string is the canonical encoding of its decoded message.
-/

/-- Self-delimiting length code for the tag/length wire model. -/
def encodeLen : Nat → List Nat
  | 0 => [0]
  | n + 1 => 1 :: encodeLen n

/-- Decoder for `encodeLen`, returning the length and the unconsumed tail. -/
def decodeLen : List Nat → Option (Nat × List Nat)
  | [] => none
  | 0 :: r => some (0, r)
  | 1 :: r =>
    match decodeLen r with
    | none => none
    | some (n, s) => some (n + 1, s)
  | _ => none

theorem decodeLen_encodeLen (n : Nat) (s : List Nat) :
    decodeLen (encodeLen n ++ s) = some (n, s) := by
  induction n with
  | zero => rfl
  | succ m ih => simp [encodeLen, decodeLen, ih]

theorem encodeLen_of_decodeLen :
    ∀ (l : List Nat) (n : Nat) (s : List Nat),
      decodeLen l = some (n, s) → encodeLen n ++ s = l := by
  intro l
  induction l with
  | nil => intro n s h; simp [decodeLen] at h
  | cons b r ih =>
    intro n s h
    match b with
    | 0 =>
      simp [decodeLen] at h
      obtain ⟨rfl, rfl⟩ := h
      rfl
    | 1 =>
      simp only [decodeLen] at h
      cases hr : decodeLen r with
      | none => rw [hr] at h; simp at h
      | some p =>
        obtain ⟨m, s2⟩ := p
        rw [hr] at h
        simp only [Option.some.injEq, Prod.mk.injEq] at h
        obtain ⟨hn, hs⟩ := h
        subst hn; subst hs
        have := ih m s2 (by rw [hr])
        simp [encodeLen, this]
    | (k + 2) => simp [decodeLen] at h

/-- Encoding of one length-delimited field: tag byte, length code, payload. -/
def fieldEnc (tag : Nat) (v : List Nat) : List Nat :=
  tag :: (encodeLen v.length ++ v)

/-- Decoder for one length-delimited field with the given tag. -/
def decodeField (tag : Nat) : List Nat → Option (List Nat × List Nat)
  | [] => none
  | t :: r =>
    if t = tag then
      match decodeLen r with
      | none => none
      | some (n, s) => if n ≤ s.length then some (s.take n, s.drop n) else none
    else none

theorem decodeField_fieldEnc (tag : Nat) (v rest : List Nat) :
    decodeField tag (fieldEnc tag v ++ rest) = some (v, rest) := by
  simp only [fieldEnc, List.cons_append, List.append_assoc, decodeField, if_pos rfl,
    decodeLen_encodeLen]
  rw [if_pos (by simp)]
  simp [List.take_left, List.drop_left]

theorem decodeField_fieldEnc_nil (tag : Nat) (v : List Nat) :
    decodeField tag (fieldEnc tag v) = some (v, []) := by
  have := decodeField_fieldEnc tag v []
  simpa using this

theorem fieldEnc_of_decodeField (tag : Nat) (l v rest : List Nat)
    (h : decodeField tag l = some (v, rest)) : fieldEnc tag v ++ rest = l := by
  match l with
  | [] => simp [decodeField] at h
  | t :: r =>
    simp only [decodeField] at h
    by_cases ht : t = tag
    · rw [if_pos ht] at h
      cases hr : decodeLen r with
      | none => rw [hr] at h; simp at h
      | some p =>
        obtain ⟨n, s⟩ := p
        rw [hr] at h
        simp only at h
        by_cases hn : n ≤ s.length
        · rw [if_pos hn] at h
          simp only [Option.some.injEq, Prod.mk.injEq] at h
          obtain ⟨hv, hrest⟩ := h
          subst hv; subst hrest
          have hlen : (s.take n).length = n := by
            simp [List.length_take, Nat.min_eq_left hn]
          have hback : encodeLen n ++ s = r := encodeLen_of_decodeLen r n s (by rw [hr])
          subst ht
          simp only [fieldEnc, hlen, List.cons_append, List.cons.injEq, true_and]
          rw [List.append_assoc, List.take_append_drop, hback]
        · rw [if_neg hn] at h; simp at h
    · rw [if_neg ht] at h; simp at h

/-!
Protobuf message shapes used by the source
(`msp.SerializedIdentity`, `msp.SerializedIdemixIdentity`,
`msp.OrganizationUnit`, `msp.MSPRole` from fabric-protos).
-/

/-- Wire outer envelope `msp.SerializedIdentity`: authority (MSP) name and
the inner identity bytes. -/
structure SerializedIdentity where
  mspid : List Nat
  idBytes : List Nat
deriving DecidableEq

/-- Wire inner envelope `msp.SerializedIdemixIdentity`: the two pseudonym
halves, marshalled OU, marshalled role, and the association proof. -/
structure SerializedIdemixIdentity where
  nymX : List Nat
  nymY : List Nat
  ou : List Nat
  role : List Nat
  proof : List Nat
deriving DecidableEq

/-- Enum `msp.MSPRole.MSPRoleType`. -/
inductive MSPRoleType where
  | member
  | admin
  | client
  | peer
deriving DecidableEq

/-- Message `msp.MSPRole`. -/
structure MSPRole where
  mspIdentifier : List Nat
  role : MSPRoleType
deriving DecidableEq

/-- Message `msp.OrganizationUnit`. -/
structure OrganizationUnit where
  mspIdentifier : List Nat
  organizationalUnitIdentifier : List Nat
  certifiersIdentifier : List Nat
deriving DecidableEq

/-- Numeric wire code of an `MSPRoleType` value. -/
def roleTypeCode : MSPRoleType → Nat
  | .member => 0
  | .admin => 1
  | .client => 2
  | .peer => 3

/-- Decoder for `roleTypeCode`. -/
def roleTypeOfCode : Nat → Option MSPRoleType
  | 0 => some .member
  | 1 => some .admin
  | 2 => some .client
  | 3 => some .peer
  | _ => none

theorem roleTypeOfCode_roleTypeCode (t : MSPRoleType) :
    roleTypeOfCode (roleTypeCode t) = some t := by
  cases t <;> rfl

theorem roleTypeCode_of_roleTypeOfCode (n : Nat) (t : MSPRoleType)
    (h : roleTypeOfCode n = some t) : roleTypeCode t = n := by
  match n with
  | 0 => simp [roleTypeOfCode] at h; subst h; rfl
  | 1 => simp [roleTypeOfCode] at h; subst h; rfl
  | 2 => simp [roleTypeOfCode] at h; subst h; rfl
  | 3 => simp [roleTypeOfCode] at h; subst h; rfl
  | (k + 4) => simp [roleTypeOfCode] at h

/-- Encoding of a numeric (enum) field: tag byte followed by the value as a
length code. -/
def fieldEncV (tag : Nat) (n : Nat) : List Nat :=
  tag :: encodeLen n

/-- Decoder for a numeric (enum) field with the given tag. -/
def decodeFieldV (tag : Nat) : List Nat → Option (Nat × List Nat)
  | [] => none
  | t :: r => if t = tag then decodeLen r else none

theorem decodeFieldV_fieldEncV (tag n : Nat) (rest : List Nat) :
    decodeFieldV tag (fieldEncV tag n ++ rest) = some (n, rest) := by
  simp [fieldEncV, decodeFieldV, decodeLen_encodeLen]

theorem decodeFieldV_fieldEncV_nil (tag n : Nat) :
    decodeFieldV tag (fieldEncV tag n) = some (n, []) := by
  have := decodeFieldV_fieldEncV tag n []
  simpa using this

theorem fieldEncV_of_decodeFieldV (tag : Nat) (l : List Nat) (n : Nat) (rest : List Nat)
    (h : decodeFieldV tag l = some (n, rest)) : fieldEncV tag n ++ rest = l := by
  match l with
  | [] => simp [decodeFieldV] at h
  | t :: r =>
    simp only [decodeFieldV] at h
    by_cases ht : t = tag
    · rw [if_pos ht] at h
      subst ht
      have := encodeLen_of_decodeLen r n rest h
      simp [fieldEncV, this]
    · rw [if_neg ht] at h; simp at h

/-- Modelled external codec: `proto.Marshal` on `msp.SerializedIdentity`. -/
def marshalSI (m : SerializedIdentity) : List Nat :=
  fieldEnc 1 m.mspid ++ fieldEnc 2 m.idBytes

/-- Modelled external codec: `proto.Unmarshal` on `msp.SerializedIdentity`. -/
def unmarshalSI (l : List Nat) : Option SerializedIdentity :=
  match decodeField 1 l with
  | none => none
  | some (v1, r1) =>
    match decodeField 2 r1 with
    | none => none
    | some (v2, r2) => if r2 = [] then some ⟨v1, v2⟩ else none

theorem unmarshalSI_marshalSI (m : SerializedIdentity) :
    unmarshalSI (marshalSI m) = some m := by
  obtain ⟨a, b⟩ := m
  simp [marshalSI, unmarshalSI, List.append_assoc, decodeField_fieldEnc,
    decodeField_fieldEnc_nil]

theorem marshalSI_of_unmarshalSI (l : List Nat) (m : SerializedIdentity)
    (h : unmarshalSI l = some m) : marshalSI m = l := by
  simp only [unmarshalSI] at h
  cases h1 : decodeField 1 l with
  | none => rw [h1] at h; simp at h
  | some p1 =>
    obtain ⟨v1, r1⟩ := p1
    rw [h1] at h
    simp only at h
    cases h2 : decodeField 2 r1 with
    | none => rw [h2] at h; simp at h
    | some p2 =>
      obtain ⟨v2, r2⟩ := p2
      rw [h2] at h
      simp only at h
      by_cases hr : r2 = []
      · rw [if_pos hr] at h
        simp only [Option.some.injEq] at h
        subst h; subst hr
        have e1 := fieldEnc_of_decodeField 1 l v1 r1 h1
        have e2 := fieldEnc_of_decodeField 2 r1 v2 [] h2
        simp only [List.append_nil] at e2
        simp [marshalSI, e2, e1]
      · rw [if_neg hr] at h; simp at h

/-- Modelled external codec: `proto.Marshal` on `msp.SerializedIdemixIdentity`. -/
def marshalSII (m : SerializedIdemixIdentity) : List Nat :=
  fieldEnc 1 m.nymX ++ fieldEnc 2 m.nymY ++ fieldEnc 3 m.ou ++
    fieldEnc 4 m.role ++ fieldEnc 5 m.proof

/-- Modelled external codec: `proto.Unmarshal` on `msp.SerializedIdemixIdentity`. -/
def unmarshalSII (l : List Nat) : Option SerializedIdemixIdentity :=
  match decodeField 1 l with
  | none => none
  | some (v1, r1) =>
    match decodeField 2 r1 with
    | none => none
    | some (v2, r2) =>
      match decodeField 3 r2 with
      | none => none
      | some (v3, r3) =>
        match decodeField 4 r3 with
        | none => none
        | some (v4, r4) =>
          match decodeField 5 r4 with
          | none => none
          | some (v5, r5) => if r5 = [] then some ⟨v1, v2, v3, v4, v5⟩ else none

theorem unmarshalSII_marshalSII (m : SerializedIdemixIdentity) :
    unmarshalSII (marshalSII m) = some m := by
  obtain ⟨a, b, c, d, e⟩ := m
  simp [marshalSII, unmarshalSII, List.append_assoc, decodeField_fieldEnc,
    decodeField_fieldEnc_nil]

theorem marshalSII_of_unmarshalSII (l : List Nat) (m : SerializedIdemixIdentity)
    (h : unmarshalSII l = some m) : marshalSII m = l := by
  simp only [unmarshalSII] at h
  cases h1 : decodeField 1 l with
  | none => rw [h1] at h; simp at h
  | some p1 =>
    obtain ⟨v1, r1⟩ := p1
    rw [h1] at h
    simp only at h
    cases h2 : decodeField 2 r1 with
    | none => rw [h2] at h; simp at h
    | some p2 =>
      obtain ⟨v2, r2⟩ := p2
      rw [h2] at h
      simp only at h
      cases h3 : decodeField 3 r2 with
      | none => rw [h3] at h; simp at h
      | some p3 =>
        obtain ⟨v3, r3⟩ := p3
        rw [h3] at h
        simp only at h
        cases h4 : decodeField 4 r3 with
        | none => rw [h4] at h; simp at h
        | some p4 =>
          obtain ⟨v4, r4⟩ := p4
          rw [h4] at h
          simp only at h
          cases h5 : decodeField 5 r4 with
          | none => rw [h5] at h; simp at h
          | some p5 =>
            obtain ⟨v5, r5⟩ := p5
            rw [h5] at h
            simp only at h
            by_cases hr : r5 = []
            · rw [if_pos hr] at h
              simp only [Option.some.injEq] at h
              subst h; subst hr
              have e1 := fieldEnc_of_decodeField 1 l v1 r1 h1
              have e2 := fieldEnc_of_decodeField 2 r1 v2 r2 h2
              have e3 := fieldEnc_of_decodeField 3 r2 v3 r3 h3
              have e4 := fieldEnc_of_decodeField 4 r3 v4 r4 h4
              have e5 := fieldEnc_of_decodeField 5 r4 v5 [] h5
              simp only [List.append_nil] at e5
              simp [marshalSII, List.append_assoc, e5, e4, e3, e2, e1]
            · rw [if_neg hr] at h; simp at h

/-- Modelled external codec: `proto.Marshal` on `msp.OrganizationUnit`. -/
def marshalOU (m : OrganizationUnit) : List Nat :=
  fieldEnc 1 m.mspIdentifier ++ fieldEnc 2 m.organizationalUnitIdentifier ++
    fieldEnc 3 m.certifiersIdentifier

/-- Modelled external codec: `proto.Unmarshal` on `msp.OrganizationUnit`. -/
def unmarshalOU (l : List Nat) : Option OrganizationUnit :=
  match decodeField 1 l with
  | none => none
  | some (v1, r1) =>
    match decodeField 2 r1 with
    | none => none
    | some (v2, r2) =>
      match decodeField 3 r2 with
      | none => none
      | some (v3, r3) => if r3 = [] then some ⟨v1, v2, v3⟩ else none

theorem unmarshalOU_marshalOU (m : OrganizationUnit) :
    unmarshalOU (marshalOU m) = some m := by
  obtain ⟨a, b, c⟩ := m
  simp [marshalOU, unmarshalOU, List.append_assoc, decodeField_fieldEnc,
    decodeField_fieldEnc_nil]

theorem marshalOU_of_unmarshalOU (l : List Nat) (m : OrganizationUnit)
    (h : unmarshalOU l = some m) : marshalOU m = l := by
  simp only [unmarshalOU] at h
  cases h1 : decodeField 1 l with
  | none => rw [h1] at h; simp at h
  | some p1 =>
    obtain ⟨v1, r1⟩ := p1
    rw [h1] at h
    simp only at h
    cases h2 : decodeField 2 r1 with
    | none => rw [h2] at h; simp at h
    | some p2 =>
      obtain ⟨v2, r2⟩ := p2
      rw [h2] at h
      simp only at h
      cases h3 : decodeField 3 r2 with
      | none => rw [h3] at h; simp at h
      | some p3 =>
        obtain ⟨v3, r3⟩ := p3
        rw [h3] at h
        simp only at h
        by_cases hr : r3 = []
        · rw [if_pos hr] at h
          simp only [Option.some.injEq] at h
          subst h; subst hr
          have e1 := fieldEnc_of_decodeField 1 l v1 r1 h1
          have e2 := fieldEnc_of_decodeField 2 r1 v2 r2 h2
          have e3 := fieldEnc_of_decodeField 3 r2 v3 [] h3
          simp only [List.append_nil] at e3
          simp [marshalOU, List.append_assoc, e3, e2, e1]
        · rw [if_neg hr] at h; simp at h

/-- Modelled external codec: `proto.Marshal` on `msp.MSPRole`. -/
def marshalMSPRole (m : MSPRole) : List Nat :=
  fieldEnc 1 m.mspIdentifier ++ fieldEncV 2 (roleTypeCode m.role)

/-- Modelled external codec: `proto.Unmarshal` on `msp.MSPRole`. -/
def unmarshalMSPRole (l : List Nat) : Option MSPRole :=
  match decodeField 1 l with
  | none => none
  | some (v1, r1) =>
    match decodeFieldV 2 r1 with
    | none => none
    | some (n, r2) =>
      match roleTypeOfCode n with
      | none => none
      | some t => if r2 = [] then some ⟨v1, t⟩ else none

theorem unmarshalMSPRole_marshalMSPRole (m : MSPRole) :
    unmarshalMSPRole (marshalMSPRole m) = some m := by
  obtain ⟨a, t⟩ := m
  simp [marshalMSPRole, unmarshalMSPRole, decodeField_fieldEnc, decodeFieldV_fieldEncV_nil,
    roleTypeOfCode_roleTypeCode]

theorem marshalMSPRole_of_unmarshalMSPRole (l : List Nat) (m : MSPRole)
    (h : unmarshalMSPRole l = some m) : marshalMSPRole m = l := by
  simp only [unmarshalMSPRole] at h
  cases h1 : decodeField 1 l with
  | none => rw [h1] at h; simp at h
  | some p1 =>
    obtain ⟨v1, r1⟩ := p1
    rw [h1] at h
    simp only at h
    cases h2 : decodeFieldV 2 r1 with
    | none => rw [h2] at h; simp at h
    | some p2 =>
      obtain ⟨n, r2⟩ := p2
      rw [h2] at h
      simp only at h
      cases h3 : roleTypeOfCode n with
      | none => rw [h3] at h; simp at h
      | some t =>
        rw [h3] at h
        simp only at h
        by_cases hr : r2 = []
        · rw [if_pos hr] at h
          simp only [Option.some.injEq] at h
          subst h; subst hr
          have e1 := fieldEnc_of_decodeField 1 l v1 r1 h1
          have e2 := fieldEncV_of_decodeFieldV 2 r1 n [] h2
          simp only [List.append_nil] at e2
          have e3 := roleTypeCode_of_roleTypeOfCode n t h3
          simp [marshalMSPRole, e3, e2, e1]
        · rw [if_neg hr] at h; simp at h

/-!
Crypto-engine interface.  The `bccsp.BCCSP` engine and `bccsp.Key` handles
are external collaborators; they are modelled as a record of pure
operations over an opaque key type `κ`.  The option structures mirror the
`csp.Idemix*Opts` values the source passes to the engine.
-/

/-- One entry of a `[]csp.IdemixAttribute`: the attribute kind tag. -/
inductive IdemixAttributeType where
  | bytesType
  | intType
  | hiddenType
deriving DecidableEq

/-- Value part of a `csp.IdemixAttribute` (Go `interface{}`: a byte slice,
an int, or nil). -/
inductive IdemixAttributeValue where
  | noValue
  | bytesValue (v : List Nat)
  | intValue (v : Int)
deriving DecidableEq

/-- A `csp.IdemixAttribute`: kind tag plus value. -/
structure IdemixAttribute where
  atype : IdemixAttributeType
  value : IdemixAttributeValue
deriving DecidableEq

/-- Options `csp.IdemixSignerOpts` (association-proof signing and
verification). -/
structure IdemixSignerOpts (κ : Type) where
  credential : List Nat
  nym : Option κ
  issuerPK : Option κ
  revocationPublicKey : Option κ
  attributes : List IdemixAttribute
  rhIndex : Nat
  epoch : Int
  cri : List Nat

/-- Options `csp.IdemixNymSignerOpts` (pseudonym signing and
verification). -/
structure IdemixNymSignerOpts (κ : Type) where
  nym : Option κ
  issuerPK : κ

/-- Options `csp.IdemixCredentialSignerOpts` (credential self-check). -/
structure IdemixCredentialSignerOpts (κ : Type) where
  issuerPK : κ
  attributes : List IdemixAttribute

/-- The options argument of `csp.Verify` / `csp.Sign`, a sum of the
option kinds the source uses. -/
inductive SignerOptsArg (κ : Type) where
  | signer (o : IdemixSignerOpts κ)
  | nymSigner (o : IdemixNymSignerOpts κ)
  | credential (o : IdemixCredentialSignerOpts κ)

/-- The external credential-cryptography engine (`bccsp.BCCSP` plus the
`bccsp.Key` handle operations), modelled as pure operations over an opaque
key type `κ`.  `sign` returns the signature together with the
signature-info blob the Go engine writes back into
`IdemixSignerOpts.Info` (the proof randomness). -/
structure Engine (κ : Type) where
  importNym : List Nat → Except EngErr κ
  importIssuer : List Nat → List (List Nat) → Except EngErr κ
  importRevocation : List Nat → Except EngErr κ
  importUserSecret : List Nat → Except EngErr κ
  keyBytes : κ → Except EngErr (List Nat)
  ski : κ → List Nat
  publicKey : κ → Except EngErr κ
  getKey : List Nat → Except EngErr κ
  keyDerivNym : κ → Bool → κ → Except EngErr κ
  verify : κ → List Nat → List Nat → SignerOptsArg κ → Bool × Option EngErr
  sign : κ → List Nat → SignerOptsArg κ → Except EngErr (List Nat × List Nat)

/-- The per-authority `support` state: authority name, raw issuer key
bytes, engine handle, imported issuer and revocation public keys, and the
epoch. -/
structure Support (κ : Type) where
  name : List Nat
  ipk : List Nat
  eng : Engine κ
  issuerPublicKey : κ
  revocationPK : κ
  epoch : Int

/-- Constant `rhIndex = 3`, the revocation-handle attribute position. -/
def rhIndex : Nat := 3

/-- Modelled from the spec: the role-code mapping used by the missing
repository helper `getIdemixRoleFromMSPRole` (the spec fixes the role set
to Member and Admin and says the role code is an integer rendered in
decimal; the numeric values follow the bitmask convention the missing
`checkRole` helper relies on). -/
def getIdemixRoleFromMSPRole (role : MSPRole) : Int :=
  match role.role with
  | .member => 1
  | .admin => 2
  | .client => 4
  | .peer => 8

/-- Modelled from the spec: the missing repository constant `ADMIN`, the
role bit the provider tests to decide whether the configured signer is an
admin. -/
def ADMIN : Nat := 2

/-- Modelled from the spec: the missing repository helper `checkRole`,
testing whether the given role bit is set in the configured role
bitmask. -/
def checkRole (bitmask : Nat) (role : Nat) : Bool :=
  bitmask &&& role = role

/-- The pseudonymous `identity` value of the source: key handle, owning
support, identity identifier (MSP id plus the nym-key bytes read as a
string), role, OU and association proof. -/
structure Identity (κ : Type) where
  nymPublicKey : κ
  support : Support κ
  idMspid : List Nat
  idId : List Nat
  role : MSPRole
  ou : OrganizationUnit
  associationProof : List Nat

/-- Error raised by `identity.Validate`: either the authority-name
mismatch ("the supplied identity does not belong to this msp") or an
engine verification error. -/
inductive VErr where
  | notBelongToMSP
  | engine (e : EngErr)
deriving DecidableEq

/-- Every distinct error-construction site of the embedded source
functions. -/
inductive Err where
  | serializeNymBytes (e : EngErr)
  | unmarshalOuter
  | unmarshalInner
  | pseudonymInvalid
  | importNymFailed (e : EngErr)
  | unmarshalOUFailed
  | unmarshalRoleFailed
  | invalidIdentity (e : VErr)
  | nilConf
  | cryptoProviderFailed (e : EngErr)
  | importIssuerFailed (e : EngErr)
  | importRevocationFailed (e : EngErr)
  | noKeyMaterial
  | importUserKeyFailed (e : EngErr)
  | derivNymFailed (e : EngErr)
  | publicNymFailed (e : EngErr)
  | credentialInvalid (e : Option EngErr)
  | proofFailed (e : EngErr)
  | registerFailed (e : EngErr)
  | noSecretMaterial (e : EngErr)
  | selfTestSignFailed (e : EngErr)
  | selfTestVerifyFailed (e : EngErr)
deriving DecidableEq

/-- Modelled from the spec: classification of the error sites that the
spec's error taxonomy calls `MalformedIdentity` (parse failure on
untrusted bytes: outer envelope, inner envelope, or missing pseudonym
half). -/
def Err.isMalformedIdentity : Err → Bool
  | .unmarshalOuter => true
  | .unmarshalInner => true
  | .pseudonymInvalid => true
  | _ => false

/-- Source `newIdentity`: builds the identity value and derives its
identifier from the nym public key bytes; a failure of `Bytes()` panics in
the source, modelled as `none`. -/
def newIdentity {κ : Type} (provider : Support κ) (nymPublicKey : κ) (role : MSPRole)
    (ou : OrganizationUnit) (proof : List Nat) : Option (Identity κ) :=
  match provider.eng.keyBytes nymPublicKey with
  | .error _ => none
  | .ok raw =>
    some { nymPublicKey := nymPublicKey
           support := provider
           idMspid := provider.name
           idId := raw
           role := role
           ou := ou
           associationProof := proof }

/-- Source `identity.GetMSPIdentifier`: returns the owning support's
name. -/
def getMSPIdentifier {κ : Type} (id : Identity κ) : List Nat :=
  id.support.name

/-- The engine call made by `identity.verifyProof`: verify the association
proof against the issuer public key with the fixed attribute template
(disclosed OU bytes, disclosed role code, hidden, hidden), the revocation
public key, `rhIndex` and the epoch. -/
def proofVerifyResult {κ : Type} (id : Identity κ) : Bool × Option EngErr :=
  id.support.eng.verify id.support.issuerPublicKey id.associationProof []
    (.signer
      { credential := []
        nym := none
        issuerPK := none
        revocationPublicKey := some id.support.revocationPK
        attributes :=
          [⟨.bytesType, .bytesValue id.ou.organizationalUnitIdentifier⟩,
           ⟨.intType, .intValue (getIdemixRoleFromMSPRole id.role)⟩,
           ⟨.hiddenType, .noValue⟩,
           ⟨.hiddenType, .noValue⟩]
        rhIndex := rhIndex
        epoch := id.support.epoch
        cri := [] })

/-- Source `identity.verifyProof`: runs the engine verification; when the
engine reports invalid with a nil error the source panics ("an error
should be returned for an invalid signature"); otherwise the engine error
(possibly nil) is returned as is. -/
def verifyProof {κ : Type} (id : Identity κ) : Outcome VErr Unit :=
  let r := proofVerifyResult id
  if r.2 = none ∧ r.1 = false then .panicked
  else
    match r.2 with
    | none => .ok ()
    | some e => .err (.engine e)

/-- Source `identity.Validate`: authority-name check followed by proof
verification. -/
def validate {κ : Type} (id : Identity κ) : Outcome VErr Unit :=
  if getMSPIdentifier id ≠ id.support.name then .err .notBelongToMSP
  else verifyProof id

/-- Source `identity.Verify`: delegate signature verification to the
engine with the nym public key and the issuer public key as context; the
boolean result is discarded and only the engine error is returned. -/
def idVerify {κ : Type} (id : Identity κ) (msg sig : List Nat) : Option EngErr :=
  (id.support.eng.verify id.nymPublicKey sig msg
    (.nymSigner { nym := none, issuerPK := id.support.issuerPublicKey })).2

/-- Principal argument of `identity.SatisfiesPrincipal`
(`msp.MSPPrincipal`), opaque for this development. -/
structure MSPPrincipal where
  principalClassification : Nat
  principal : List Nat
deriving DecidableEq

/-- Source `identity.SatisfiesPrincipal`: the body is
`panic("not implemented yet")`. -/
def satisfiesPrincipal {κ : Type} (_id : Identity κ) (_principal : MSPPrincipal) :
    Outcome Err Unit :=
  .panicked

/-- Source `identity.Serialize`: read the nym public key bytes, split them
at the midpoint into NymX and NymY, marshal OU and role, assemble the
inner envelope, and wrap it in a `SerializedIdentity` stamped with
`GetMSPIdentifier()`. -/
def serialize {κ : Type} (id : Identity κ) : Except Err (List Nat) :=
  match id.support.eng.keyBytes id.nymPublicKey with
  | .error e => .error (.serializeNymBytes e)
  | .ok raw =>
    let serialized : SerializedIdemixIdentity :=
      { nymX := raw.take (raw.length / 2)
        nymY := raw.drop (raw.length / 2)
        ou := marshalOU id.ou
        role := marshalMSPRole id.role
        proof := id.associationProof }
    let idemixIDBytes := marshalSII serialized
    .ok (marshalSI { mspid := getMSPIdentifier id, idBytes := idemixIDBytes })

/-- The `signingIdentity` of the source: a pseudonymous identity plus the
credential bytes, user-secret handle, nym-secret handle and enrollment
id. -/
structure SigningIdentity (κ : Type) where
  identity : Identity κ
  cred : List Nat
  userKey : κ
  nymKey : κ
  enrollmentId : List Nat

/-- Source `signingIdentity.Sign`: engine signing with the user key under
`IdemixNymSignerOpts` carrying the nym handle and issuer public key. -/
def siSign {κ : Type} (si : SigningIdentity κ) (msg : List Nat) : Except EngErr (List Nat) :=
  match si.identity.support.eng.sign si.userKey msg
      (.nymSigner { nym := some si.nymKey, issuerPK := si.identity.support.issuerPublicKey }) with
  | .error e => .error e
  | .ok (sig, _) => .ok sig

/-- Result record of `support.Deserialize`. -/
structure Deserialized (κ : Type) where
  id : Identity κ
  nymPublicKey : κ
  si : SerializedIdentity
  ou : OrganizationUnit
  role : MSPRole

/-- Source `support.Deserialize`: parse the outer envelope, parse the
inner envelope, reject a missing pseudonym half, import the concatenated
pseudonym key, unmarshal OU and role, build the identity, and optionally
validate it. -/
def deserialize {κ : Type} (s : Support κ) (raw : List Nat) (checkValidity : Bool) :
    Outcome Err (Deserialized κ) :=
  match unmarshalSI raw with
  | none => .err .unmarshalOuter
  | some si =>
    match unmarshalSII si.idBytes with
    | none => .err .unmarshalInner
    | some serialized =>
      if serialized.nymX = [] ∨ serialized.nymY = [] then .err .pseudonymInvalid
      else
        match s.eng.importNym (serialized.nymX ++ serialized.nymY) with
        | .error e => .err (.importNymFailed e)
        | .ok nymPublicKey =>
          match unmarshalOU serialized.ou with
          | none => .err .unmarshalOUFailed
          | some ou =>
            match unmarshalMSPRole serialized.role with
            | none => .err .unmarshalRoleFailed
            | some role =>
              match newIdentity s nymPublicKey role ou serialized.proof with
              | none => .panicked
              | some id =>
                if checkValidity then
                  match validate id with
                  | .panicked => .panicked
                  | .err e => .err (.invalidIdentity e)
                  | .ok _ => .ok ⟨id, nymPublicKey, si, ou, role⟩
                else .ok ⟨id, nymPublicKey, si, ou, role⟩

/-!
Provider layer (`NewProvider`, `Identity`, `DeserializeVerifier`,
`DeserializeSigner`, `DeserializeSigningIdentity`).
-/

/-- Signer block of the idemix MSP configuration
(`m.IdemixMSPSignerConfig`). -/
structure IdemixSignerConfig where
  sk : List Nat
  cred : List Nat
  organizationalUnitIdentifier : List Nat
  role : Nat
  enrollmentId : List Nat
  credentialRevocationInformation : List Nat
deriving DecidableEq

/-- Idemix MSP configuration (`m.IdemixMSPConfig`); the signer block is
optional (`Signer = nil` means no key material). -/
structure IdemixMSPConfig where
  name : List Nat
  ipk : List Nat
  revocationPk : List Nat
  signer : Option IdemixSignerConfig
deriving DecidableEq

/-- The `provider` of the source: support state, user-secret handle,
configuration, and the signer-registration collaborator (the source
discovers it through the service registry; per the spec it is an injected
external interface, modelled as a function from the serialized identity
to an optional registration error). -/
structure Provider (κ : Type) where
  support : Support κ
  userKey : κ
  conf : IdemixMSPConfig
  registerSigner : List Nat → Option EngErr

/-- Attribute names passed when importing the issuer public key
(`msp.AttributeNameOU`, `Role`, `EnrollmentId`, `RevocationHandle`). -/
def attributeNames : List (List Nat) :=
  [strBytes "OU", strBytes "Role", strBytes "EnrollmentId", strBytes "RevocationHandle"]

/-- Source `NewProvider`: reject a nil configuration reference, create the
crypto provider, import issuer and revocation public keys, reject a
configuration without signer material, import the user secret key, and
assemble the provider.  The creation of the crypto provider is passed in
as its `Except` result, and the protobuf unmarshal of the embedded config
bytes is elided by passing the decoded `IdemixMSPConfig` (its failure
path returns an error before any key import, so eliding it only removes
an early error exit). -/
def newProvider {κ : Type} (mkEngine : Except EngErr (Engine κ))
    (conf1 : Option IdemixMSPConfig) (reg : List Nat → Option EngErr) :
    Except Err (Provider κ) :=
  match conf1 with
  | none => .error .nilConf
  | some conf =>
    match mkEngine with
    | .error e => .error (.cryptoProviderFailed e)
    | .ok cryptoProvider =>
      match cryptoProvider.importIssuer conf.ipk attributeNames with
      | .error e => .error (.importIssuerFailed e)
      | .ok issuerPublicKey =>
        match cryptoProvider.importRevocation conf.revocationPk with
        | .error e => .error (.importRevocationFailed e)
        | .ok revocationPublicKey =>
          match conf.signer with
          | none => .error .noKeyMaterial
          | some signerConf =>
            match cryptoProvider.importUserSecret signerConf.sk with
            | .error e => .error (.importUserKeyFailed e)
            | .ok userKey =>
              .ok { support :=
                      { name := conf.name
                        ipk := []
                        eng := cryptoProvider
                        issuerPublicKey := issuerPublicKey
                        revocationPK := revocationPublicKey
                        epoch := 0 }
                    userKey := userKey
                    conf := conf
                    registerSigner := reg }

/-- Decimal rendering of a natural number as ASCII digit bytes, bounded by
a structural fuel argument. -/
def natDecAux : Nat → Nat → List Nat
  | 0, n => [48 + n % 10]
  | fuel + 1, n => if n < 10 then [48 + n] else natDecAux fuel (n / 10) ++ [48 + n % 10]

/-- Decimal digit bytes of a natural number. -/
def itoaNat (n : Nat) : List Nat :=
  natDecAux n n

/-- Model of Go `strconv.Itoa`: the decimal rendering of an integer as
bytes, with a leading minus sign for negative values. -/
def itoa : Int → List Nat
  | .ofNat n => itoaNat n
  | .negSucc n => 45 :: itoaNat (n + 1)

/-- The audit-information record built by `Identity()`: the engine's
signature-info blob (proof randomness) plus the ordered attribute byte
values. -/
structure AuditInfo where
  idemixSignatureInfo : List Nat
  attributes : List (List Nat)
deriving DecidableEq

/-- Modelled from the spec: `AuditInfo.Bytes`, the missing repository
serialization of the audit record, specified as a deterministic
self-describing encoding (here: the signature-info blob as a
length-delimited field, the attribute count, then each attribute as a
length-delimited field). -/
def auditInfoBytes (ai : AuditInfo) : List Nat :=
  fieldEnc 1 ai.idemixSignatureInfo ++ encodeLen ai.attributes.length ++
    (ai.attributes.map (fieldEnc 2)).flatten

/-- The role value `Identity()` and `SignerIdentity()` build from the
configured signer role: MEMBER, upgraded to ADMIN when the admin bit is
set. -/
def roleFromConf {κ : Type} (p : Provider κ) (signerConf : IdemixSignerConfig) : MSPRole :=
  { mspIdentifier := p.support.name
    role := if checkRole signerConf.role ADMIN then .admin else .member }

/-- The OU value `Identity()` and `SignerIdentity()` build from the
configuration: the configured OU identifier certified by the issuer
public key's subject key identifier. -/
def ouFromConf {κ : Type} (p : Provider κ) (signerConf : IdemixSignerConfig) :
    OrganizationUnit :=
  { mspIdentifier := p.support.name
    organizationalUnitIdentifier := signerConf.organizationalUnitIdentifier
    certifiersIdentifier := p.support.eng.ski p.support.issuerPublicKey }

/-- The engine call `Identity()` makes to self-check the held credential
against the configured OU, role code, and enrollment id, with the
revocation handle hidden. -/
def credentialVerifyResult {κ : Type} (p : Provider κ) (signerConf : IdemixSignerConfig) :
    Bool × Option EngErr :=
  p.support.eng.verify p.userKey signerConf.cred []
    (.credential
      { issuerPK := p.support.issuerPublicKey
        attributes :=
          [⟨.bytesType, .bytesValue signerConf.organizationalUnitIdentifier⟩,
           ⟨.intType, .intValue (getIdemixRoleFromMSPRole (roleFromConf p signerConf))⟩,
           ⟨.bytesType, .bytesValue signerConf.enrollmentId⟩,
           ⟨.hiddenType, .noValue⟩] })

/-- The engine call `Identity()` makes to produce the association proof:
signing with the user key under `IdemixSignerOpts` carrying the
credential, the fresh nym, the issuer public key, the blank disclosed
attribute template, `rhIndex` and the credential revocation information;
the result carries the signature and the written-back signature info
(proof randomness). -/
def proofSignResult {κ : Type} (p : Provider κ) (signerConf : IdemixSignerConfig)
    (nymKey : κ) : Except EngErr (List Nat × List Nat) :=
  p.support.eng.sign p.userKey []
    (.signer
      { credential := signerConf.cred
        nym := some nymKey
        issuerPK := some p.support.issuerPublicKey
        revocationPublicKey := none
        attributes :=
          [⟨.bytesType, .noValue⟩,
           ⟨.intType, .noValue⟩,
           ⟨.hiddenType, .noValue⟩,
           ⟨.hiddenType, .noValue⟩]
        rhIndex := rhIndex
        epoch := 0
        cri := signerConf.credentialRevocationInformation })

/-- Source `provider.Identity` (full issuance): derive a non-temporary nym
key, read role and OU from configuration, self-check the credential,
produce the association proof, build the signing identity, serialize it,
register it with the signer registry, and serialize the audit info built
from the proof randomness plus the ordered attributes (OU identifier,
role code in decimal, enrollment id).  Returns the serialized identity
and the serialized audit info. -/
def identityOp {κ : Type} (p : Provider κ) : Outcome Err (List Nat × List Nat) :=
  match p.support.eng.keyDerivNym p.userKey false p.support.issuerPublicKey with
  | .error e => .err (.derivNymFailed e)
  | .ok nymKey =>
    match p.support.eng.publicKey nymKey with
    | .error e => .err (.publicNymFailed e)
    | .ok nymPublicKey =>
      match p.conf.signer with
      | none => .panicked
      | some signerConf =>
        let role := roleFromConf p signerConf
        let ou := ouFromConf p signerConf
        let enrollmentID := signerConf.enrollmentId
        let cc := credentialVerifyResult p signerConf
        if cc.2.isSome ∨ cc.1 = false then .err (.credentialInvalid cc.2)
        else
          match proofSignResult p signerConf nymKey with
          | .error e => .err (.proofFailed e)
          | .ok (proof, info) =>
            match newIdentity p.support nymPublicKey role ou proof with
            | none => .panicked
            | some ident =>
              match serialize ident with
              | .error e => .err e
              | .ok raw =>
                match p.registerSigner raw with
                | some e => .err (.registerFailed e)
                | none =>
                  let auditInfo : AuditInfo :=
                    { idemixSignatureInfo := info
                      attributes :=
                        [signerConf.organizationalUnitIdentifier,
                         itoa (getIdemixRoleFromMSPRole role),
                         enrollmentID] }
                  .ok (raw, auditInfoBytes auditInfo)

/-- Source `provider.DeserializeVerifier`: deserialize with validity
checking and return the identity as a verifier. -/
def deserializeVerifier {κ : Type} (p : Provider κ) (raw : List Nat) :
    Outcome Err (Identity κ) :=
  match deserialize p.support raw true with
  | .err e => .err e
  | .panicked => .panicked
  | .ok r => .ok r.id

/-- The fixed probe message of the `DeserializeSigner` self-test. -/
def probeMessage : List Nat :=
  strBytes "hello world!!!"

/-- Source `provider.DeserializeSigner`: deserialize with validity
checking, resolve the local nym secret key by the reconstructed public
key's subject key identifier, build the signing identity, and self-test
it by signing and verifying the fixed probe message. -/
def deserializeSigner {κ : Type} (p : Provider κ) (raw : List Nat) :
    Outcome Err (SigningIdentity κ) :=
  match deserialize p.support raw true with
  | .err e => .err e
  | .panicked => .panicked
  | .ok r =>
    match p.support.eng.getKey (p.support.eng.ski r.nymPublicKey) with
    | .error e => .err (.noSecretMaterial e)
    | .ok nymKey =>
      match p.conf.signer with
      | none => .panicked
      | some signerConf =>
        let si : SigningIdentity κ :=
          { identity := r.id
            cred := signerConf.cred
            userKey := p.userKey
            nymKey := nymKey
            enrollmentId := signerConf.enrollmentId }
        match siSign si probeMessage with
        | .error e => .err (.selfTestSignFailed e)
        | .ok sigma =>
          match idVerify si.identity probeMessage sigma with
          | some e => .err (.selfTestVerifyFailed e)
          | none => .ok si

/-- The continuation `DeserializeSigningIdentity` runs after its parse
prefix: resolve the nym secret key by the reconstructed public key's
subject key identifier and assemble the signing identity (no
self-test). -/
def resolveNymSecret {κ : Type} (p : Provider κ) (r : Deserialized κ) :
    Outcome Err (SigningIdentity κ) :=
  match p.support.eng.getKey (p.support.eng.ski r.nymPublicKey) with
  | .error e => .err (.noSecretMaterial e)
  | .ok nymKey =>
    match p.conf.signer with
    | none => .panicked
    | some signerConf =>
      .ok { identity := r.id
            cred := signerConf.cred
            userKey := p.userKey
            nymKey := nymKey
            enrollmentId := signerConf.enrollmentId }

/-- Source `provider.DeserializeSigningIdentity`: the source repeats the
parse sequence of `support.Deserialize` inline (outer envelope, inner
envelope, pseudonym-half check, key import, OU, role, identity
construction, validation) and then resolves the nym secret key; the body
is translated literally to compare it against the canonical path. -/
def deserializeSigningIdentity {κ : Type} (p : Provider κ) (raw : List Nat) :
    Outcome Err (SigningIdentity κ) :=
  match unmarshalSI raw with
  | none => .err .unmarshalOuter
  | some si =>
    match unmarshalSII si.idBytes with
    | none => .err .unmarshalInner
    | some serialized =>
      if serialized.nymX = [] ∨ serialized.nymY = [] then .err .pseudonymInvalid
      else
        match p.support.eng.importNym (serialized.nymX ++ serialized.nymY) with
        | .error e => .err (.importNymFailed e)
        | .ok nymPublicKey =>
          match unmarshalOU serialized.ou with
          | none => .err .unmarshalOUFailed
          | some ou =>
            match unmarshalMSPRole serialized.role with
            | none => .err .unmarshalRoleFailed
            | some role =>
              match newIdentity p.support nymPublicKey role ou serialized.proof with
              | none => .panicked
              | some id =>
                match validate id with
                | .panicked => .panicked
                | .err e => .err (.invalidIdentity e)
                | .ok _ =>
                  match p.support.eng.getKey (p.support.eng.ski nymPublicKey) with
                  | .error e => .err (.noSecretMaterial e)
                  | .ok nymKey =>
                    match p.conf.signer with
                    | none => .panicked
                    | some signerConf =>
                      .ok { identity := id
                            cred := signerConf.cred
                            userKey := p.userKey
                            nymKey := nymKey
                            enrollmentId := signerConf.enrollmentId }

/-!
Helper lemmas and concrete fixtures used by the claim theorems,
witnesses and counterexamples.
-/

theorem validate_eq_verifyProof {κ : Type} (id : Identity κ) :
    validate id = verifyProof id := by
  simp [validate, getMSPIdentifier]

theorem take_drop_half_append {α : Type} (x y : List α) (h : x.length = y.length) :
    (x ++ y).take ((x ++ y).length / 2) = x ∧ (x ++ y).drop ((x ++ y).length / 2) = y := by
  have hlen : (x ++ y).length / 2 = x.length := by
    simp only [List.length_append, h]
    omega
  constructor
  · rw [hlen]
    exact List.take_left x y
  · rw [hlen]
    exact List.drop_left x y

/-- Concrete engine over `κ := List Nat` (a key is its own byte
encoding) with every operation succeeding. -/
def cEngine : Engine (List Nat) :=
  { importNym := fun r => .ok r
    importIssuer := fun _ _ => .ok [0]
    importRevocation := fun _ => .ok [0]
    importUserSecret := fun _ => .ok [0]
    keyBytes := fun k => .ok k
    ski := fun k => k
    publicKey := fun k => .ok k
    getKey := fun k => .ok k
    keyDerivNym := fun _ _ _ => .ok [3, 4]
    verify := fun _ _ _ _ => (true, none)
    sign := fun _ _ _ => .ok ([9], [7]) }

/-- Concrete support over `cEngine` with authority name `[7]`. -/
def cSupport : Support (List Nat) :=
  { name := [7]
    ipk := []
    eng := cEngine
    issuerPublicKey := [0]
    revocationPK := [0]
    epoch := 0 }

/-- Concrete organizational unit. -/
def cOU : OrganizationUnit :=
  { mspIdentifier := [7], organizationalUnitIdentifier := [8], certifiersIdentifier := [0] }

/-- Concrete role. -/
def cRole : MSPRole :=
  { mspIdentifier := [7], role := .member }

/-- Concrete identity over `cSupport`. -/
def cIdentity : Identity (List Nat) :=
  { nymPublicKey := [1, 2]
    support := cSupport
    idMspid := [7]
    idId := [1, 2]
    role := cRole
    ou := cOU
    associationProof := [5] }

/-- Concrete identity whose engine reports the proof valid together with a
non-nil error. -/
def cIdentityValidErr : Identity (List Nat) :=
  { cIdentity with
      support := { cSupport with eng := { cEngine with verify := fun _ _ _ _ => (true, some "e") } } }

/-- Concrete identity whose engine reports the proof invalid together with
a nil error. -/
def cIdentityInvalidNil : Identity (List Nat) :=
  { cIdentity with
      support := { cSupport with eng := { cEngine with verify := fun _ _ _ _ => (false, none) } } }

/-- Concrete principal argument. -/
def cPrincipal : MSPPrincipal :=
  { principalClassification := 0, principal := [] }

/-- C10: for every identity value, the authority-name-mismatch branch of
`Validate()` is unreachable — `GetMSPIdentifier()` and the support's name
are read from the same field — so `Validate()` always equals proof
verification alone. -/
theorem C10_validate_reduces_to_verifyProof {κ : Type} (id : Identity κ) :
    validate id = verifyProof id :=
  validate_eq_verifyProof id

/-- C2: `Validate()` returns the does-not-belong error whenever
`GetMSPIdentifier()` differs from the support's name, otherwise returns
exactly the proof-verification result, and succeeds exactly when the
authority name matches and the engine verification reports valid with a
nil error. -/
theorem C2_validate_characterization {κ : Type} (id : Identity κ) :
    (getMSPIdentifier id ≠ id.support.name → validate id = .err .notBelongToMSP) ∧
    (getMSPIdentifier id = id.support.name → validate id = verifyProof id) ∧
    (validate id = .ok () ↔
      getMSPIdentifier id = id.support.name ∧ proofVerifyResult id = (true, none)) := by
  refine ⟨fun h => absurd rfl h, fun _ => validate_eq_verifyProof id, ?_⟩
  rw [validate_eq_verifyProof id]
  unfold verifyProof
  rcases hr : proofVerifyResult id with ⟨v, e⟩
  cases e with
  | none =>
    cases v with
    | false => simp [getMSPIdentifier]
    | true => simp [getMSPIdentifier]
  | some e2 => simp [getMSPIdentifier]

/-- C2 witness: at the concrete identity the authority name matches, the
engine verification succeeds, and `Validate()` returns nil. -/
theorem C2_validate_witness : validate cIdentity = .ok () :=
  (C2_validate_characterization cIdentity).2.2.mpr ⟨rfl, rfl⟩

/-- C3 counterexample: when the engine reports the proof valid together
with a non-nil error, `verifyProof` returns that error to the caller as an
ordinary validation failure — it does not panic. -/
theorem C3_counterexample :
    proofVerifyResult cIdentityValidErr = (true, some "e") ∧
      verifyProof cIdentityValidErr = .err (.engine "e") :=
  ⟨rfl, rfl⟩

/-- C3 amended: of the two contradictory engine-result combinations, only
invalid-with-nil-error is treated as a fatal internal contract violation
(a panic); valid-with-non-nil-error is returned to the caller as an
ordinary verification error. -/
theorem C3_invariant_amended {κ : Type} (id : Identity κ) (v : Bool) (e : Option EngErr)
    (h : proofVerifyResult id = (v, e)) :
    verifyProof id =
      (if e = none ∧ v = false then Outcome.panicked
       else
         match e with
         | none => .ok ()
         | some e2 => .err (.engine e2)) := by
  unfold verifyProof
  rw [h]

/-- C3 witness: at the concrete identity whose engine reports invalid with
a nil error, `verifyProof` panics. -/
theorem C3_invariant_witness : verifyProof cIdentityInvalidNil = Outcome.panicked := by
  have h := C3_invariant_amended cIdentityInvalidNil false none rfl
  simpa using h

/-- C9 counterexample: at a concrete identity and principal,
`SatisfiesPrincipal` panics — it terminates unrecoverably instead of
returning a not-implemented failure. -/
theorem C9_counterexample :
    satisfiesPrincipal cIdentity cPrincipal = Outcome.panicked :=
  rfl

/-- C9 amended: for every identity and principal, `SatisfiesPrincipal`
signals the unsupported capability by panicking with "not implemented
yet" — an unrecoverable termination, not a returned error. -/
theorem C9_satisfiesPrincipal_panics {κ : Type} (id : Identity κ) (principal : MSPPrincipal) :
    satisfiesPrincipal id principal = Outcome.panicked :=
  rfl

/-- C5: a structural parse failure of the outer envelope or of the inner
envelope, or the absence of either pseudonym half, makes
`support.Deserialize` return the corresponding malformed-identity error
(so no identity is returned). -/
theorem C5_malformed_errors {κ : Type} (s : Support κ) (raw : List Nat) (cv : Bool) :
    (unmarshalSI raw = none →
      deserialize s raw cv = .err .unmarshalOuter ∧
        Err.unmarshalOuter.isMalformedIdentity = true) ∧
    (∀ si, unmarshalSI raw = some si → unmarshalSII si.idBytes = none →
      deserialize s raw cv = .err .unmarshalInner ∧
        Err.unmarshalInner.isMalformedIdentity = true) ∧
    (∀ si sx, unmarshalSI raw = some si → unmarshalSII si.idBytes = some sx →
      sx.nymX = [] ∨ sx.nymY = [] →
      deserialize s raw cv = .err .pseudonymInvalid ∧
        Err.pseudonymInvalid.isMalformedIdentity = true) := by
  refine ⟨fun h => ⟨?_, rfl⟩, fun si h1 h2 => ⟨?_, rfl⟩, fun si sx h1 h2 h3 => ⟨?_, rfl⟩⟩
  · simp only [deserialize, h]
  · simp only [deserialize, h1, h2]
  · simp only [deserialize, h1, h2]
    rw [if_pos h3]

/-- Concrete inner envelope with an absent NymX half. -/
def cSxNoNymX : SerializedIdemixIdentity :=
  { nymX := [], nymY := [2], ou := [], role := [], proof := [] }

/-- C5 witness: at three concrete inputs — bytes rejected by the outer
parse, an envelope whose inner bytes are rejected, and an envelope whose
inner identity lacks the NymX half — `Deserialize` returns the
corresponding malformed-identity error. -/
theorem C5_malformed_witness :
    deserialize cSupport [9] true = .err .unmarshalOuter ∧
    deserialize cSupport (marshalSI ⟨[], [9]⟩) true = .err .unmarshalInner ∧
    deserialize cSupport (marshalSI ⟨[], marshalSII cSxNoNymX⟩) true = .err .pseudonymInvalid :=
  ⟨((C5_malformed_errors cSupport [9] true).1 rfl).1,
   ((C5_malformed_errors cSupport (marshalSI ⟨[], [9]⟩) true).2.1 ⟨[], [9]⟩ (by
      rw [unmarshalSI_marshalSI]) rfl).1,
   ((C5_malformed_errors cSupport (marshalSI ⟨[], marshalSII cSxNoNymX⟩) true).2.2
      ⟨[], marshalSII cSxNoNymX⟩ cSxNoNymX (by rw [unmarshalSI_marshalSI])
      (by rw [unmarshalSII_marshalSII]) (Or.inl rfl)).1⟩

/-- C6: for every configuration whose signer block is absent,
`NewProvider` fails with an explicit error — it never returns a
provider. -/
theorem C6_no_signer_fails {κ : Type} (mkEngine : Except EngErr (Engine κ))
    (conf : IdemixMSPConfig) (reg : List Nat → Option EngErr)
    (h : conf.signer = none) :
    ∃ e, newProvider mkEngine (some conf) reg = .error e := by
  cases mkEngine with
  | error e => exact ⟨.cryptoProviderFailed e, rfl⟩
  | ok eng =>
    cases hI : eng.importIssuer conf.ipk attributeNames with
    | error e => exact ⟨.importIssuerFailed e, by simp only [newProvider, hI]⟩
    | ok issuerPK =>
      cases hR : eng.importRevocation conf.revocationPk with
      | error e => exact ⟨.importRevocationFailed e, by simp only [newProvider, hI, hR]⟩
      | ok revocationPK =>
        exact ⟨.noKeyMaterial, by simp only [newProvider, hI, hR, h]⟩

/-- Concrete configuration without signer material. -/
def cConfNoSigner : IdemixMSPConfig :=
  { name := [7], ipk := [], revocationPk := [], signer := none }

/-- C6 witness: the concrete signerless configuration makes `NewProvider`
fail with an error. -/
theorem C6_no_signer_witness :
    ∃ e, newProvider (.ok cEngine) (some cConfNoSigner) (fun _ => none) = .error e :=
  C6_no_signer_fails (.ok cEngine) cConfNoSigner (fun _ => none) rfl

/-- C4: for every provider and input, `DeserializeSigningIdentity` accepts
or rejects the bytes exactly as the canonical parse path
`support.Deserialize(raw, true)` does, and continues with the parsed
result (same identity — pseudonym key, OU, role, proof — handed to the
pseudonym-secret resolution). -/
theorem C4_single_parse_path {κ : Type} (p : Provider κ) (raw : List Nat) :
    deserializeSigningIdentity p raw =
      Outcome.bind (deserialize p.support raw true) (resolveNymSecret p) := by
  cases h1 : unmarshalSI raw with
  | none => simp [deserializeSigningIdentity, deserialize, h1, Outcome.bind]
  | some si =>
    cases h2 : unmarshalSII si.idBytes with
    | none => simp [deserializeSigningIdentity, deserialize, h1, h2, Outcome.bind]
    | some sx =>
      by_cases hxy : sx.nymX = [] ∨ sx.nymY = []
      · simp [deserializeSigningIdentity, deserialize, h1, h2, hxy, Outcome.bind]
      · cases h3 : p.support.eng.importNym (sx.nymX ++ sx.nymY) with
        | error e =>
          simp [deserializeSigningIdentity, deserialize, h1, h2, hxy, h3, Outcome.bind]
        | ok k =>
          cases h4 : unmarshalOU sx.ou with
          | none =>
            simp [deserializeSigningIdentity, deserialize, h1, h2, hxy, h3, h4, Outcome.bind]
          | some ou =>
            cases h5 : unmarshalMSPRole sx.role with
            | none =>
              simp [deserializeSigningIdentity, deserialize, h1, h2, hxy, h3, h4, h5,
                Outcome.bind]
            | some role =>
              cases h6 : newIdentity p.support k role ou sx.proof with
              | none =>
                simp [deserializeSigningIdentity, deserialize, h1, h2, hxy, h3, h4, h5, h6,
                  Outcome.bind]
              | some id =>
                cases h7 : validate id with
                | panicked =>
                  simp [deserializeSigningIdentity, deserialize, h1, h2, hxy, h3, h4, h5, h6,
                    h7, Outcome.bind]
                | err e =>
                  simp [deserializeSigningIdentity, deserialize, h1, h2, hxy, h3, h4, h5, h6,
                    h7, Outcome.bind]
                | ok u =>
                  simp [deserializeSigningIdentity, deserialize, h1, h2, hxy, h3, h4, h5, h6,
                    h7, Outcome.bind, resolveNymSecret]

/-- C8: `DeserializeSigner` fails exactly as the canonical parse path does
on rejected bytes; on an accepted parse a missing local nym-secret handle
(looked up by the reconstructed public key's subject key identifier)
yields the no-secret-material error; a failing self-test sign or verify
step yields an error; and a signer is returned only when the self-test on
the fixed probe message signed and verified successfully. -/
theorem C8_deserializeSigner_characterization {κ : Type} (p : Provider κ) (raw : List Nat) :
    (∀ e, deserialize p.support raw true = .err e → deserializeSigner p raw = .err e) ∧
    (∀ r e, deserialize p.support raw true = .ok r →
      p.support.eng.getKey (p.support.eng.ski r.nymPublicKey) = .error e →
      deserializeSigner p raw = .err (.noSecretMaterial e)) ∧
    (∀ r nymKey sc e, deserialize p.support raw true = .ok r →
      p.support.eng.getKey (p.support.eng.ski r.nymPublicKey) = .ok nymKey →
      p.conf.signer = some sc →
      siSign ⟨r.id, sc.cred, p.userKey, nymKey, sc.enrollmentId⟩ probeMessage = .error e →
      deserializeSigner p raw = .err (.selfTestSignFailed e)) ∧
    (∀ r nymKey sc sigma e, deserialize p.support raw true = .ok r →
      p.support.eng.getKey (p.support.eng.ski r.nymPublicKey) = .ok nymKey →
      p.conf.signer = some sc →
      siSign ⟨r.id, sc.cred, p.userKey, nymKey, sc.enrollmentId⟩ probeMessage = .ok sigma →
      idVerify r.id probeMessage sigma = some e →
      deserializeSigner p raw = .err (.selfTestVerifyFailed e)) ∧
    (∀ si, deserializeSigner p raw = .ok si →
      ∃ r sigma, deserialize p.support raw true = .ok r ∧ si.identity = r.id ∧
        siSign si probeMessage = .ok sigma ∧ idVerify r.id probeMessage sigma = none) := by
  refine ⟨?_, ?_, ?_, ?_, ?_⟩
  · intro e h
    simp [deserializeSigner, h]
  · intro r e h hk
    simp [deserializeSigner, h, hk]
  · intro r nymKey sc e h hk hs hsig
    simp [deserializeSigner, h, hk, hs, hsig]
  · intro r nymKey sc sigma e h hk hs hsig hv
    simp [deserializeSigner, h, hk, hs, hsig, hv]
  · intro si h
    cases hd : deserialize p.support raw true with
    | err e => simp [deserializeSigner, hd] at h
    | panicked => simp [deserializeSigner, hd] at h
    | ok r =>
      cases hk : p.support.eng.getKey (p.support.eng.ski r.nymPublicKey) with
      | error e => simp [deserializeSigner, hd, hk] at h
      | ok nymKey =>
        cases hs : p.conf.signer with
        | none => simp [deserializeSigner, hd, hk, hs] at h
        | some sc =>
          cases hsig : siSign ⟨r.id, sc.cred, p.userKey, nymKey, sc.enrollmentId⟩
              probeMessage with
          | error e => simp [deserializeSigner, hd, hk, hs, hsig] at h
          | ok sigma =>
            cases hv : idVerify r.id probeMessage sigma with
            | some e => simp [deserializeSigner, hd, hk, hs, hsig, hv] at h
            | none =>
              have h2 : Outcome.ok (ε := Err)
                  (⟨r.id, sc.cred, p.userKey, nymKey, sc.enrollmentId⟩ : SigningIdentity κ) =
                  .ok si := by
                rw [← h]
                simp [deserializeSigner, hd, hk, hs, hsig, hv]
              injection h2 with h3
              subst h3
              exact ⟨r, sigma, rfl, rfl, hsig, hv⟩

/-- Concrete engine whose secret-key lookup always fails. -/
def cEngineNoKey : Engine (List Nat) :=
  { cEngine with getKey := fun _ => .error "nokey" }

/-- Concrete support over `cEngineNoKey`. -/
def cSupportNoKey : Support (List Nat) :=
  { cSupport with eng := cEngineNoKey }

/-- Concrete signer configuration block. -/
def cSignerConf : IdemixSignerConfig :=
  { sk := []
    cred := [6]
    organizationalUnitIdentifier := [8]
    role := 2
    enrollmentId := [9]
    credentialRevocationInformation := [] }

/-- Concrete configuration with signer material. -/
def cConf : IdemixMSPConfig :=
  { name := [7], ipk := [], revocationPk := [], signer := some cSignerConf }

/-- Concrete provider over `cSupportNoKey`. -/
def cP8 : Provider (List Nat) :=
  { support := cSupportNoKey, userKey := [0], conf := cConf, registerSigner := fun _ => none }

/-- Concrete inner envelope that round-trips. -/
def cSx1 : SerializedIdemixIdentity :=
  { nymX := [1], nymY := [2], ou := marshalOU cOU, role := marshalMSPRole cRole, proof := [5] }

/-- Concrete wire bytes accepted by `Deserialize`. -/
def cRaw1 : List Nat :=
  marshalSI ⟨[7], marshalSII cSx1⟩

/-- The identity reconstructed from `cRaw1` over `cSupportNoKey`. -/
def cId8 : Identity (List Nat) :=
  { cIdentity with support := cSupportNoKey }

/-- The parse result of `cRaw1` over `cSupportNoKey`. -/
def cD8 : Deserialized (List Nat) :=
  { id := cId8, nymPublicKey := [1, 2], si := ⟨[7], marshalSII cSx1⟩, ou := cOU, role := cRole }

/-- C8 witness: on concrete accepted bytes whose provider has no local
secret for the reconstructed key, `DeserializeSigner` fails with the
no-secret-material error. -/
theorem C8_deserializeSigner_witness :
    deserializeSigner cP8 cRaw1 = .err (.noSecretMaterial "nokey") :=
  (C8_deserializeSigner_characterization cP8 cRaw1).2.1 cD8 "nokey" rfl rfl

/-- C7: every successful `Identity()` call returns, alongside the
serialized identity, the serialization of an `AuditInfo` built from the
proof randomness written back by the association-proof signing call plus
exactly the ordered attribute byte values: the configured OU identifier,
the role code rendered as a decimal string, and the configured enrollment
id. -/
theorem C7_auditInfo_contents {κ : Type} (p : Provider κ) (raw infoRaw : List Nat)
    (h : identityOp p = .ok (raw, infoRaw)) :
    ∃ signerConf nymKey proof info,
      p.conf.signer = some signerConf ∧
      proofSignResult p signerConf nymKey = .ok (proof, info) ∧
      infoRaw = auditInfoBytes
        { idemixSignatureInfo := info
          attributes :=
            [signerConf.organizationalUnitIdentifier,
             itoa (getIdemixRoleFromMSPRole (roleFromConf p signerConf)),
             signerConf.enrollmentId] } := by
  cases hd : p.support.eng.keyDerivNym p.userKey false p.support.issuerPublicKey with
  | error e => simp [identityOp, hd] at h
  | ok nymKey =>
    cases hp : p.support.eng.publicKey nymKey with
    | error e => simp [identityOp, hd, hp] at h
    | ok nymPublicKey =>
      cases hs : p.conf.signer with
      | none => simp [identityOp, hd, hp, hs] at h
      | some sc =>
        by_cases hcc : (credentialVerifyResult p sc).2.isSome ∨
            (credentialVerifyResult p sc).1 = false
        · simp [identityOp, hd, hp, hs, hcc] at h
        · cases hsig : proofSignResult p sc nymKey with
          | error e => simp [identityOp, hd, hp, hs, hcc, hsig] at h
          | ok pr =>
            obtain ⟨proof, info⟩ := pr
            cases hni : newIdentity p.support nymPublicKey (roleFromConf p sc)
                (ouFromConf p sc) proof with
            | none => simp [identityOp, hd, hp, hs, hcc, hsig, hni] at h
            | some ident =>
              cases hser : serialize ident with
              | error e => simp [identityOp, hd, hp, hs, hcc, hsig, hni, hser] at h
              | ok raw0 =>
                cases hreg : p.registerSigner raw0 with
                | some e => simp [identityOp, hd, hp, hs, hcc, hsig, hni, hser, hreg] at h
                | none =>
                  simp [identityOp, hd, hp, hs, hcc, hsig, hni, hser, hreg] at h
                  refine ⟨sc, nymKey, proof, info, rfl, hsig, ?_⟩
                  exact h.2.symm

/-- Concrete provider with signer material over the always-succeeding
engine. -/
def cP7 : Provider (List Nat) :=
  { support := cSupport, userKey := [0], conf := cConf, registerSigner := fun _ => none }

/-- The admin role value the concrete provider derives from its
configuration. -/
def cRole7 : MSPRole :=
  { mspIdentifier := [7], role := .admin }

/-- The serialized identity produced by `Identity()` on the concrete
provider. -/
def cRaw7 : List Nat :=
  marshalSI ⟨[7], marshalSII ⟨[3], [4], marshalOU cOU, marshalMSPRole cRole7, [9]⟩⟩

/-- The serialized audit info produced by `Identity()` on the concrete
provider. -/
def cInfo7 : List Nat :=
  auditInfoBytes ⟨[7], [[8], itoa 2, [9]]⟩

/-- C7 witness: on the concrete provider, `Identity()` succeeds and the
returned audit-info bytes are the serialization of the audit record built
from the sign call's info blob and the ordered attributes. -/
theorem C7_auditInfo_witness :
    ∃ signerConf nymKey proof info,
      cP7.conf.signer = some signerConf ∧
      proofSignResult cP7 signerConf nymKey = .ok (proof, info) ∧
      cInfo7 = auditInfoBytes
        { idemixSignatureInfo := info
          attributes :=
            [signerConf.organizationalUnitIdentifier,
             itoa (getIdemixRoleFromMSPRole (roleFromConf cP7 signerConf)),
             signerConf.enrollmentId] } :=
  C7_auditInfo_contents cP7 cRaw7 cInfo7 rfl

/-- Composition `Serialize(Deserialize(bytes))` on one support: the
re-serialization of the identity reconstructed from accepted bytes
(`none` when the bytes are rejected). -/
def roundTripSD {κ : Type} (s : Support κ) (raw : List Nat) : Option (Except Err (List Nat)) :=
  match deserialize s raw true with
  | .ok d => some (serialize d.id)
  | _ => none

/-- Concrete accepted bytes whose pseudonym halves have unequal lengths
and whose outer envelope names an authority other than the deserializing
support. -/
def cRawBad : List Nat :=
  marshalSI ⟨[9], marshalSII ⟨[1, 2], [3], marshalOU cOU, marshalMSPRole cRole, [5]⟩⟩

/-- The bytes `Serialize` produces for the identity reconstructed from
`cRawBad`: the pseudonym is re-split at the midpoint and the authority
name is replaced by the support's. -/
def cRawBadReser : List Nat :=
  marshalSI ⟨[7], marshalSII ⟨[1], [2, 3], marshalOU cOU, marshalMSPRole cRole, [5]⟩⟩

/-- C1 counterexample: `cRawBad` is accepted by `Deserialize` (a valid
identity for its support), yet serializing the deserialized identity
yields different bytes — the nym halves are re-split at the midpoint and
the wire authority name is replaced by the support's name. -/
theorem C1_counterexample :
    roundTripSD cSupport cRawBad = some (.ok cRawBadReser) ∧ cRawBadReser ≠ cRawBad :=
  ⟨rfl, by decide⟩

/-- C1 (amended): when the accepted envelope's pseudonym halves have equal
length, its authority name equals the deserializing support's name, and
the engine returns the imported bytes from `Bytes()` unchanged, then
serializing the deserialized identity reproduces the original bytes; and
deserializing the output of `Serialize` (for a pseudonym-key encoding of
at least two bytes that the engine re-imports consistently) yields an
identity with the same id string, role and organizational unit. -/
theorem C1_roundtrip_amended :
    (∀ (κ : Type) (s : Support κ) (raw : List Nat) (cv : Bool) (d : Deserialized κ)
      (si : SerializedIdentity) (sx : SerializedIdemixIdentity),
      unmarshalSI raw = some si →
      unmarshalSII si.idBytes = some sx →
      si.mspid = s.name →
      sx.nymX.length = sx.nymY.length →
      (∀ r k, s.eng.importNym r = .ok k → s.eng.keyBytes k = .ok r) →
      deserialize s raw cv = .ok d →
      serialize d.id = .ok raw) ∧
    (∀ (κ : Type) (s : Support κ) (id : Identity κ) (raw kraw : List Nat) (k2 : κ),
      serialize id = .ok raw →
      id.support.eng.keyBytes id.nymPublicKey = .ok kraw →
      2 ≤ kraw.length →
      id.idId = kraw →
      s.eng.importNym kraw = .ok k2 →
      s.eng.keyBytes k2 = .ok kraw →
      ∃ d, deserialize s raw false = .ok d ∧
        d.id.idId = id.idId ∧ d.id.role = id.role ∧ d.id.ou = id.ou) := by
  constructor
  · intro κ s raw cv d si sx h1 h2 hm hl hrt hd
    obtain ⟨m, ib⟩ := si
    obtain ⟨x, y, ouB, roleB, prB⟩ := sx
    simp only at hm hl
    simp only [deserialize, h1, h2] at hd
    by_cases hxy : x = [] ∨ y = []
    · rw [if_pos hxy] at hd
      simp at hd
    · rw [if_neg hxy] at hd
      cases himp : s.eng.importNym (x ++ y) with
      | error e => simp only [himp] at hd; simp at hd
      | ok k =>
        simp only [himp] at hd
        cases hou : unmarshalOU ouB with
        | none => simp only [hou] at hd; simp at hd
        | some ou =>
          simp only [hou] at hd
          cases hrole : unmarshalMSPRole roleB with
          | none => simp only [hrole] at hd; simp at hd
          | some role =>
            simp only [hrole] at hd
            have hkb : s.eng.keyBytes k = .ok (x ++ y) := hrt _ _ himp
            simp only [newIdentity, hkb] at hd
            have hid : d.id =
                { nymPublicKey := k
                  support := s
                  idMspid := s.name
                  idId := x ++ y
                  role := role
                  ou := ou
                  associationProof := prB } := by
              cases cv with
              | false =>
                simp only [Bool.false_eq_true, if_false] at hd
                injection hd with hd2
                rw [← hd2]
              | true =>
                simp only [if_true] at hd
                cases hv : validate
                    { nymPublicKey := k
                      support := s
                      idMspid := s.name
                      idId := x ++ y
                      role := role
                      ou := ou
                      associationProof := prB } with
                | panicked => simp only [hv] at hd; simp at hd
                | err e => simp only [hv] at hd; simp at hd
                | ok u =>
                  simp only [hv] at hd
                  injection hd with hd2
                  rw [← hd2]
            rw [hid]
            simp only [serialize, hkb, getMSPIdentifier]
            obtain ⟨ht, hdp⟩ := take_drop_half_append x y hl
            rw [ht, hdp, marshalOU_of_unmarshalOU ouB ou hou,
              marshalMSPRole_of_unmarshalMSPRole roleB role hrole]
            rw [marshalSII_of_unmarshalSII ib ⟨x, y, ouB, roleB, prB⟩ h2, ← hm,
              marshalSI_of_unmarshalSI raw ⟨m, ib⟩ h1]
  · intro κ s id raw kraw k2 hser hkb hlen hid himp hkb2
    simp only [serialize, hkb] at hser
    injection hser with hraw
    subst hraw
    simp only [deserialize, unmarshalSI_marshalSI, unmarshalSII_marshalSII]
    have hx : ¬(kraw.take (kraw.length / 2) = [] ∨ kraw.drop (kraw.length / 2) = []) := by
      rintro (h | h)
      · rw [List.take_eq_nil_iff] at h
        rcases h with h | h
        · omega
        · subst h
          simp at hlen
      · rw [List.drop_eq_nil_iff] at h
        omega
    rw [if_neg hx]
    rw [List.take_append_drop]
    simp only [himp, unmarshalOU_marshalOU, unmarshalMSPRole_marshalMSPRole, newIdentity,
      hkb2, Bool.false_eq_true, if_false]
    exact ⟨_, rfl, hid.symm, rfl, rfl⟩

/-- The engine round-trip property of the concrete engine: imported key
bytes are returned unchanged. -/
theorem cEngine_roundtrip :
    ∀ (r k : List Nat), cSupport.eng.importNym r = .ok k → cSupport.eng.keyBytes k = .ok r := by
  intro r k h
  simp only [cSupport, cEngine] at h ⊢
  injection h with h2
  rw [h2]

/-- The parse result of `cRaw1` over `cSupport`. -/
def cD1 : Deserialized (List Nat) :=
  { id := cIdentity, nymPublicKey := [1, 2], si := ⟨[7], marshalSII cSx1⟩, ou := cOU, role := cRole }

/-- C1 witness: on concrete well-formed bytes with equal-length pseudonym
halves and matching authority name, serializing the deserialized identity
reproduces the bytes, and deserializing the serialized concrete identity
yields an identity with the same id string, role and OU. -/
theorem C1_roundtrip_witness :
    serialize cD1.id = .ok cRaw1 ∧
    (∃ d, deserialize cSupport cRaw1 false = .ok d ∧
      d.id.idId = cIdentity.idId ∧ d.id.role = cIdentity.role ∧ d.id.ou = cIdentity.ou) :=
  ⟨C1_roundtrip_amended.1 (List Nat) cSupport cRaw1 true cD1 ⟨[7], marshalSII cSx1⟩ cSx1
      rfl rfl rfl rfl cEngine_roundtrip rfl,
   C1_roundtrip_amended.2 (List Nat) cSupport cIdentity cRaw1 [1, 2] [1, 2]
      rfl rfl (by decide) rfl rfl rfl⟩
